import Mathlib

/-!
Verification of the incremental hashing session in
`src/lune/builtins/serde/crypto.rs` (`Crypto`, `CryptoAlgo`, `EncodingKind`).

The Rust code is shallowly embedded: machine words are `Nat` reduced
modulo `2^32` / `2^64`, byte strings are `List Nat`, the shared
`Arc<Mutex<CryptoAlgo>>` cell is explicit state passing on a `Crypto`
structure, and a Rust `panic!` (or `Result::unwrap` on `Err`) is the
`Outcome.panicked` constructor.  The hash cores of the external `sha1` /
`sha2` crates are embedded as the FIPS 180-4 algorithms they implement.
-/

set_option maxRecDepth 100000

namespace LuneCrypto

/-! ## 32/64-bit word arithmetic on `Nat` -/

def w32 (n : Nat) : Nat := n % 4294967296

def w64 (n : Nat) : Nat := n % 18446744073709551616

def rotr32 (x n : Nat) : Nat := w32 ((x <<< (32 - n)) ||| (x >>> n))

def rotl32 (x n : Nat) : Nat := w32 ((x >>> (32 - n)) ||| (x <<< n))

def rotr64 (x n : Nat) : Nat := w64 ((x <<< (64 - n)) ||| (x >>> n))

def not32 (x : Nat) : Nat := 4294967295 ^^^ x

def not64 (x : Nat) : Nat := 18446744073709551615 ^^^ x

/-! ## Bytes and big-endian words -/

/-- The four big-endian bytes of a 32-bit word. -/
def wordBytesBE (w : Nat) : List Nat :=
  [w / 16777216 % 256, w / 65536 % 256, w / 256 % 256, w % 256]

/-- The eight big-endian bytes of a 64-bit word. -/
def word64BytesBE (w : Nat) : List Nat :=
  [w / 72057594037927936 % 256, w / 281474976710656 % 256,
   w / 1099511627776 % 256, w / 4294967296 % 256,
   w / 16777216 % 256, w / 65536 % 256, w / 256 % 256, w % 256]

/-- Group bytes into big-endian 32-bit words (4 bytes each). -/
def bytesToWords32 : List Nat → List Nat
  | b0 :: b1 :: b2 :: b3 :: rest =>
      (b0 * 16777216 + b1 * 65536 + b2 * 256 + b3) :: bytesToWords32 rest
  | _ => []

/-- Group bytes into big-endian 64-bit words (8 bytes each). -/
def bytesToWords64 : List Nat → List Nat
  | b0 :: b1 :: b2 :: b3 :: b4 :: b5 :: b6 :: b7 :: rest =>
      (b0 * 72057594037927936 + b1 * 281474976710656 + b2 * 1099511627776 +
       b3 * 4294967296 + b4 * 16777216 + b5 * 65536 + b6 * 256 + b7) ::
        bytesToWords64 rest
  | _ => []

/-- Fuelled splitting of a byte list into blocks of `sz` bytes. -/
def chunkBlocks (sz : Nat) : Nat → List Nat → List (List Nat)
  | 0, _ => []
  | _ + 1, [] => []
  | fuel + 1, b :: bs => (b :: bs).take sz :: chunkBlocks sz fuel ((b :: bs).drop sz)

/-- Merkle–Damgård padding: `0x80`, zeros, then the bit length on
`lenBytes` big-endian bytes, to a multiple of `block` bytes. -/
def mdPad (block lenBytes : Nat) (msg : List Nat) : List Nat :=
  let len := msg.length
  let target := block - lenBytes
  let z := (target + block - (len + 1) % block) % block
  let bitLen := 8 * len
  let lenField := (List.range lenBytes).map fun i =>
    bitLen / (256 ^ (lenBytes - 1 - i)) % 256
  msg ++ 128 :: List.replicate z 0 ++ lenField

/-! ## SHA-256 (FIPS 180-4), the algorithm of the `sha2::Sha256` crate -/

def sha256K : List Nat := [
  1116352408, 1899447441, 3049323471, 3921009573, 961987163, 1508970993,
  2453635748, 2870763221, 3624381080, 310598401, 607225278, 1426881987,
  1925078388, 2162078206, 2614888103, 3248222580, 3835390401, 4022224774,
  264347078, 604807628, 770255983, 1249150122, 1555081692, 1996064986,
  2554220882, 2821834349, 2952996808, 3210313671, 3336571891, 3584528711,
  113926993, 338241895, 666307205, 773529912, 1294757372, 1396182291,
  1695183700, 1986661051, 2177026350, 2456956037, 2730485921, 2820302411,
  3259730800, 3345764771, 3516065817, 3600352804, 4094571909, 275423344,
  430227734, 506948616, 659060556, 883997877, 958139571, 1322822218,
  1537002063, 1747873779, 1955562222, 2024104815, 2227730452, 2361852424,
  2428436474, 2756734187, 3204031479, 3329325298]

structure Sha256St where
  a : Nat
  b : Nat
  c : Nat
  d : Nat
  e : Nat
  f : Nat
  g : Nat
  h : Nat

def sha256Init : Sha256St :=
  ⟨1779033703, 3144134277, 1013904242, 2773480762,
   1359893119, 2600822924, 528734635, 1541459225⟩

/-- Extend 16 message words to the 64-word schedule. -/
def sha256Extend : Nat → List Nat → List Nat
  | 0, ws => ws
  | n + 1, ws =>
      let i := ws.length
      let w15 := ws.getD (i - 15) 0
      let w2 := ws.getD (i - 2) 0
      let s0 := rotr32 w15 7 ^^^ rotr32 w15 18 ^^^ (w15 >>> 3)
      let s1 := rotr32 w2 17 ^^^ rotr32 w2 19 ^^^ (w2 >>> 10)
      sha256Extend n (ws ++ [w32 (ws.getD (i - 16) 0 + s0 + ws.getD (i - 7) 0 + s1)])

def sha256Round (st : Sha256St) (kw : Nat × Nat) : Sha256St :=
  let s1 := rotr32 st.e 6 ^^^ rotr32 st.e 11 ^^^ rotr32 st.e 25
  let ch := (st.e &&& st.f) ^^^ (not32 st.e &&& st.g)
  let t1 := w32 (st.h + s1 + ch + kw.1 + kw.2)
  let s0 := rotr32 st.a 2 ^^^ rotr32 st.a 13 ^^^ rotr32 st.a 22
  let maj := (st.a &&& st.b) ^^^ (st.a &&& st.c) ^^^ (st.b &&& st.c)
  let t2 := w32 (s0 + maj)
  ⟨w32 (t1 + t2), st.a, st.b, st.c, w32 (st.d + t1), st.e, st.f, st.g⟩

def sha256Block (st : Sha256St) (block : List Nat) : Sha256St :=
  let ws := sha256Extend 48 (bytesToWords32 block)
  let r := (sha256K.zip ws).foldl sha256Round st
  ⟨w32 (st.a + r.a), w32 (st.b + r.b), w32 (st.c + r.c), w32 (st.d + r.d),
   w32 (st.e + r.e), w32 (st.f + r.f), w32 (st.g + r.g), w32 (st.h + r.h)⟩

/-- SHA-256 digest (32 bytes) of a byte message. -/
def sha256Hash (msg : List Nat) : List Nat :=
  let padded := mdPad 64 8 msg
  let final := (chunkBlocks 64 padded.length padded).foldl sha256Block sha256Init
  [final.a, final.b, final.c, final.d,
   final.e, final.f, final.g, final.h].flatMap wordBytesBE

/-! ## SHA-1 (FIPS 180-4), the algorithm of the `sha1::Sha1` crate -/

structure Sha1St where
  a : Nat
  b : Nat
  c : Nat
  d : Nat
  e : Nat

def sha1Init : Sha1St :=
  ⟨1732584193, 4023233417, 2562383102, 271733878, 3285377520⟩

def sha1Extend : Nat → List Nat → List Nat
  | 0, ws => ws
  | n + 1, ws =>
      let i := ws.length
      let w := rotl32 (ws.getD (i - 3) 0 ^^^ ws.getD (i - 8) 0 ^^^
        ws.getD (i - 14) 0 ^^^ ws.getD (i - 16) 0) 1
      sha1Extend n (ws ++ [w])

def sha1F (i b c d : Nat) : Nat :=
  if i < 20 then (b &&& c) ||| (not32 b &&& d)
  else if i < 40 then b ^^^ c ^^^ d
  else if i < 60 then (b &&& c) ||| (b &&& d) ||| (c &&& d)
  else b ^^^ c ^^^ d

def sha1KOf (i : Nat) : Nat :=
  if i < 20 then 1518500249
  else if i < 40 then 1859775393
  else if i < 60 then 2400959708
  else 3395469782

def sha1Round (st : Sha1St) (iw : Nat × Nat) : Sha1St :=
  let t := w32 (rotl32 st.a 5 + sha1F iw.1 st.b st.c st.d + st.e + sha1KOf iw.1 + iw.2)
  ⟨t, st.a, rotl32 st.b 30, st.c, st.d⟩

def sha1Block (st : Sha1St) (block : List Nat) : Sha1St :=
  let ws := sha1Extend 64 (bytesToWords32 block)
  let r := ((List.range 80).zip ws).foldl sha1Round st
  ⟨w32 (st.a + r.a), w32 (st.b + r.b), w32 (st.c + r.c),
   w32 (st.d + r.d), w32 (st.e + r.e)⟩

/-- SHA-1 digest (20 bytes) of a byte message. -/
def sha1Hash (msg : List Nat) : List Nat :=
  let padded := mdPad 64 8 msg
  let final := (chunkBlocks 64 padded.length padded).foldl sha1Block sha1Init
  [final.a, final.b, final.c, final.d, final.e].flatMap wordBytesBE

/-! ## SHA-512 (FIPS 180-4), the algorithm of the `sha2::Sha512` crate -/

def sha512K : List Nat := [
  4794697086780616226, 8158064640168781261, 13096744586834688815,
  16840607885511220156, 4131703408338449720, 6480981068601479193,
  10538285296894168987, 12329834152419229976, 15566598209576043074,
  1334009975649890238, 2608012711638119052, 6128411473006802146,
  8268148722764581231, 9286055187155687089, 11230858885718282805,
  13951009754708518548, 16472876342353939154, 17275323862435702243,
  1135362057144423861, 2597628984639134821, 3308224258029322869,
  5365058923640841347, 6679025012923562964, 8573033837759648693,
  10970295158949994411, 12119686244451234320, 12683024718118986047,
  13788192230050041572, 14330467153632333762, 15395433587784984357,
  489312712824947311, 1452737877330783856, 2861767655752347644,
  3322285676063803686, 5560940570517711597, 5996557281743188959,
  7280758554555802590, 8532644243296465576, 9350256976987008742,
  10552545826968843579, 11727347734174303076, 12113106623233404929,
  14000437183269869457, 14369950271660146224, 15101387698204529176,
  15463397548674623760, 17586052441742319658, 1182934255886127544,
  1847814050463011016, 2177327727835720531, 2830643537854262169,
  3796741975233480872, 4115178125766777443, 5681478168544905931,
  6601373596472566643, 7507060721942968483, 8399075790359081724,
  8693463985226723168, 9568029438360202098, 10144078919501101548,
  10430055236837252648, 11840083180663258601, 13761210420658862357,
  14299343276471374635, 14566680578165727644, 15097957966210449927,
  16922976911328602910, 17689382322260857208, 500013540394364858,
  748580250866718886, 1242879168328830382, 1977374033974150939,
  2944078676154940804, 3659926193048069267, 4368137639120453308,
  4836135668995329356, 5532061633213252278, 6448918945643986474,
  6902733635092675308, 7801388544844847127]

structure Sha512St where
  a : Nat
  b : Nat
  c : Nat
  d : Nat
  e : Nat
  f : Nat
  g : Nat
  h : Nat

def sha512Init : Sha512St :=
  ⟨7640891576956012808, 13503953896175478587, 4354685564936845355,
   11912009170470909681, 5840696475078001361, 11170449401992604703,
   2270897969802886507, 6620516959819538809⟩

def sha512Extend : Nat → List Nat → List Nat
  | 0, ws => ws
  | n + 1, ws =>
      let i := ws.length
      let w15 := ws.getD (i - 15) 0
      let w2 := ws.getD (i - 2) 0
      let s0 := rotr64 w15 1 ^^^ rotr64 w15 8 ^^^ (w15 >>> 7)
      let s1 := rotr64 w2 19 ^^^ rotr64 w2 61 ^^^ (w2 >>> 6)
      sha512Extend n (ws ++ [w64 (ws.getD (i - 16) 0 + s0 + ws.getD (i - 7) 0 + s1)])

def sha512Round (st : Sha512St) (kw : Nat × Nat) : Sha512St :=
  let s1 := rotr64 st.e 14 ^^^ rotr64 st.e 18 ^^^ rotr64 st.e 41
  let ch := (st.e &&& st.f) ^^^ (not64 st.e &&& st.g)
  let t1 := w64 (st.h + s1 + ch + kw.1 + kw.2)
  let s0 := rotr64 st.a 28 ^^^ rotr64 st.a 34 ^^^ rotr64 st.a 39
  let maj := (st.a &&& st.b) ^^^ (st.a &&& st.c) ^^^ (st.b &&& st.c)
  let t2 := w64 (s0 + maj)
  ⟨w64 (t1 + t2), st.a, st.b, st.c, w64 (st.d + t1), st.e, st.f, st.g⟩

def sha512Block (st : Sha512St) (block : List Nat) : Sha512St :=
  let ws := sha512Extend 64 (bytesToWords64 block)
  let r := (sha512K.zip ws).foldl sha512Round st
  ⟨w64 (st.a + r.a), w64 (st.b + r.b), w64 (st.c + r.c), w64 (st.d + r.d),
   w64 (st.e + r.e), w64 (st.f + r.f), w64 (st.g + r.g), w64 (st.h + r.h)⟩

/-- SHA-512 digest (64 bytes) of a byte message. -/
def sha512Hash (msg : List Nat) : List Nat :=
  let padded := mdPad 128 16 msg
  let final := (chunkBlocks 128 padded.length padded).foldl sha512Block sha512Init
  [final.a, final.b, final.c, final.d,
   final.e, final.f, final.g, final.h].flatMap word64BytesBE

/-! ## Hex rendering (the `hex` crate: `hex::encode`, lowercase) -/

def hexDigitChar (n : Nat) : Char :=
  "0123456789abcdef".data.getD n 'x'

def hexEncodeChars (bs : List Nat) : List Char :=
  bs.flatMap fun b => [hexDigitChar (b / 16), hexDigitChar (b % 16)]

/-- `hex::encode`: lowercase hexadecimal rendering of a byte sequence. -/
def hexEncode (bs : List Nat) : String := ⟨hexEncodeChars bs⟩

def hexDigitVal (c : Char) : Option Nat :=
  let n := c.toNat
  if 48 ≤ n ∧ n ≤ 57 then some (n - 48)
  else if 97 ≤ n ∧ n ≤ 102 then some (n - 87)
  else none

def hexDecodeChars : List Char → Option (List Nat)
  | [] => some []
  | c1 :: c2 :: rest => do
      let h ← hexDigitVal c1
      let l ← hexDigitVal c2
      let t ← hexDecodeChars rest
      pure ((h * 16 + l) :: t)
  | _ => none

/-- Hex decoding, inverse of `hexEncode` on byte sequences. -/
def hexDecode (s : String) : Option (List Nat) := hexDecodeChars s.data

/-! ## Base64 rendering (`base64::engine::general_purpose::STANDARD`:
standard alphabet, padded) -/

def b64Alphabet : List Char :=
  "ABCDEFGHIJKLMNOPQRSTUVWXYZabcdefghijklmnopqrstuvwxyz0123456789+/".data

def b64Char (n : Nat) : Char := b64Alphabet.getD n 'x'

def base64EncodeChars : List Nat → List Char
  | [] => []
  | [b1] => [b64Char (b1 / 4), b64Char (b1 % 4 * 16), '=', '=']
  | [b1, b2] =>
      [b64Char (b1 / 4), b64Char (b1 % 4 * 16 + b2 / 16), b64Char (b2 % 16 * 4), '=']
  | b1 :: b2 :: b3 :: rest =>
      b64Char (b1 / 4) :: b64Char (b1 % 4 * 16 + b2 / 16) ::
        b64Char (b2 % 16 * 4 + b3 / 64) :: b64Char (b3 % 64) ::
          base64EncodeChars rest

/-- `STANDARD.encode`: padded base64 rendering of a byte sequence. -/
def base64Encode (bs : List Nat) : String := ⟨base64EncodeChars bs⟩

def b64CharVal (c : Char) : Option Nat :=
  let n := c.toNat
  if 65 ≤ n ∧ n ≤ 90 then some (n - 65)
  else if 97 ≤ n ∧ n ≤ 122 then some (n - 71)
  else if 48 ≤ n ∧ n ≤ 57 then some (n + 4)
  else if c = '+' then some 62
  else if c = '/' then some 63
  else none

def base64DecodeChars : List Char → Option (List Nat)
  | [] => some []
  | c1 :: c2 :: c3 :: c4 :: rest => do
      let v1 ← b64CharVal c1
      let v2 ← b64CharVal c2
      if c3 = '=' then
        if c4 = '=' ∧ rest = [] then pure [v1 * 4 + v2 / 16] else none
      else do
        let v3 ← b64CharVal c3
        if c4 = '=' then
          if rest = [] then pure [v1 * 4 + v2 / 16, v2 % 16 * 16 + v3 / 4]
          else none
        else do
          let v4 ← b64CharVal c4
          let t ← base64DecodeChars rest
          pure ((v1 * 4 + v2 / 16) :: (v2 % 16 * 16 + v3 / 4) :: (v3 % 4 * 64 + v4) :: t)
  | _ => none

/-- Base64 decoding, inverse of `base64Encode` on byte sequences. -/
def base64Decode (s : String) : Option (List Nat) := base64DecodeChars s.data

/-! ## UTF-8 decoding (`String::from_utf8`) -/

/-- Decode a byte sequence as UTF-8 (the validation performed by Rust's
`String::from_utf8`): `none` exactly on invalid UTF-8. -/
def utf8DecodeChars : List Nat → Option (List Char)
  | [] => some []
  | b1 :: rest =>
    if b1 < 128 then do
      let t ← utf8DecodeChars rest
      pure (Char.ofNat b1 :: t)
    else if 194 ≤ b1 ∧ b1 ≤ 223 then
      match rest with
      | b2 :: rest2 =>
        if 128 ≤ b2 ∧ b2 ≤ 191 then do
          let t ← utf8DecodeChars rest2
          pure (Char.ofNat ((b1 - 192) * 64 + (b2 - 128)) :: t)
        else none
      | [] => none
    else if 224 ≤ b1 ∧ b1 ≤ 239 then
      match rest with
      | b2 :: b3 :: rest2 =>
        if (if b1 = 224 then 160 else 128) ≤ b2 ∧
            b2 ≤ (if b1 = 237 then 159 else 191) ∧
            128 ≤ b3 ∧ b3 ≤ 191 then do
          let t ← utf8DecodeChars rest2
          pure (Char.ofNat ((b1 - 224) * 4096 + (b2 - 128) * 64 + (b3 - 128)) :: t)
        else none
      | _ => none
    else if 240 ≤ b1 ∧ b1 ≤ 244 then
      match rest with
      | b2 :: b3 :: b4 :: rest2 =>
        if (if b1 = 240 then 144 else 128) ≤ b2 ∧
            b2 ≤ (if b1 = 244 then 143 else 191) ∧
            128 ≤ b3 ∧ b3 ≤ 191 ∧ 128 ≤ b4 ∧ b4 ≤ 191 then do
          let t ← utf8DecodeChars rest2
          pure (Char.ofNat
            ((b1 - 240) * 262144 + (b2 - 128) * 4096 + (b3 - 128) * 64 + (b4 - 128)) :: t)
        else none
      | _ => none
    else none

/-! ## Rust control flow and the `EncodingKind` parsers -/

instance exceptDecEq {ε α : Type} [DecidableEq ε] [DecidableEq α] :
    DecidableEq (Except ε α) := fun x y =>
  match x, y with
  | .ok a, .ok b => decidable_of_iff (a = b) (by simp)
  | .ok _, .error _ => .isFalse (by simp)
  | .error _, .ok _ => .isFalse (by simp)
  | .error a, .error b => decidable_of_iff (a = b) (by simp)

/-- The result of running a piece of Rust code: a value, or a `panic!`
(also produced by `Result::unwrap` on an `Err`). -/
inductive Outcome (α : Type) where
  | ok (value : α)
  | panicked (msg : String)
deriving DecidableEq

def Outcome.map {α β : Type} (f : α → β) : Outcome α → Outcome β
  | .ok v => .ok (f v)
  | .panicked m => .panicked m

/-- `enum EncodingKind`. -/
inductive EncodingKind where
  | utf8
  | base64
  | hex
deriving DecidableEq

/-- `impl From<usize> for EncodingKind` (`crypto.rs:37-46`): ordinals 0/1/2,
every other ordinal hits `panic!("invalid value")`. -/
def EncodingKind.fromUsize : Nat → Outcome EncodingKind
  | 0 => .ok .utf8
  | 1 => .ok .base64
  | 2 => .ok .hex
  | _ => .panicked "invalid value"

/-- `str::to_lowercase` restricted to ASCII case mapping (the three names
being matched are ASCII, so the restriction is faithful there). -/
def toLowerStr (s : String) : String :=
  ⟨s.data.map fun c =>
    if 65 ≤ c.toNat ∧ c.toNat ≤ 90 then Char.ofNat (c.toNat + 32) else c⟩

/-- `impl From<String> for EncodingKind` (`crypto.rs:48-57`): lowercase the
name, match the three names, every other name hits `panic!("invalid value")`. -/
def EncodingKind.fromString (value : String) : Outcome EncodingKind :=
  match toLowerStr value with
  | "utf8" => .ok .utf8
  | "base64" => .ok .base64
  | "hex" => .ok .hex
  | _ => .panicked "invalid value"

/-! ## Lua values at the boundary (`impl FromLua for EncodingKind`) -/

/-- An IEEE double as seen by the `f64 as usize` cast: NaN, infinities, or a
finite value (its exact rational magnitude; rounding of the stored float has
already happened and is irrelevant to the cast). -/
inductive F64 where
  | nan
  | posInf
  | negInf
  | val (q : ℚ)

def F64.isNegative : F64 → Bool
  | .negInf => true
  | .val q => decide (q < 0)
  | _ => false

def USIZE_MAX : Nat := 18446744073709551615

/-- Rust `f64 as usize`: NaN casts to 0, the cast truncates toward zero and
saturates at the bounds of `usize` (so every negative value casts to 0). -/
def F64.asUsize : F64 → Nat
  | .nan => 0
  | .negInf => 0
  | .posInf => USIZE_MAX
  | .val q => if q < 0 then 0 else min (Int.toNat q.floor) USIZE_MAX

/-- Rust `i64 as usize` on a 64-bit target: two's-complement reinterpretation. -/
def intAsUsize (i : Int) : Nat := (i % 18446744073709551616).toNat

/-- The Lua values relevant to `FromLua for EncodingKind`. -/
inductive LuaVal where
  | integer (i : Int)
  | number (f : F64)
  | str (s : String)
  | other (typeName : String)

/-- `impl FromLua for EncodingKind` (`crypto.rs:59-73`): integers and numbers
are cast with `as usize` and fed to `From<usize>` (which may panic), strings
to `From<String>` (which may panic), anything else is a recoverable
`FromLuaConversionError`. -/
def EncodingKind.fromLua : LuaVal → Outcome (Except String EncodingKind)
  | .integer i => (EncodingKind.fromUsize (intAsUsize i)).map Except.ok
  | .number f => (EncodingKind.fromUsize f.asUsize).map Except.ok
  | .str s => (EncodingKind.fromString s).map Except.ok
  | .other tn =>
      .ok (.error (tn ++ ": value must be a an Integer, Number or String"))

/-! ## `CryptoAlgo` and the `Crypto` session -/

/-- `enum CryptoAlgo` (`crypto.rs:21-28`): one variant per supported digest
family, each owning its boxed hasher.  A hasher's internal state is
represented by the byte sequence it has absorbed since construction or the
last reset.  The `Md5` variant is commented out in the source and absent. -/
inductive CryptoAlgo where
  | sha1 (acc : List Nat)
  | sha256 (acc : List Nat)
  | sha512 (acc : List Nat)
deriving DecidableEq

/-- `DynDigest::update` on the underlying hasher: absorb more bytes. -/
def CryptoAlgo.updateAlgo : CryptoAlgo → List Nat → CryptoAlgo
  | .sha1 acc, bs => .sha1 (acc ++ bs)
  | .sha256 acc, bs => .sha256 (acc ++ bs)
  | .sha512 acc, bs => .sha512 (acc ++ bs)

/-- `DynDigest::finalize_reset`: the digest of the absorbed bytes together
with the hasher reset to its fresh state. -/
def CryptoAlgo.finalizeReset : CryptoAlgo → List Nat × CryptoAlgo
  | .sha1 acc => (sha1Hash acc, .sha1 [])
  | .sha256 acc => (sha256Hash acc, .sha256 [])
  | .sha512 acc => (sha512Hash acc, .sha512 [])

/-- The bytes a hasher has absorbed. -/
def CryptoAlgo.acc : CryptoAlgo → List Nat
  | .sha1 a => a
  | .sha256 a => a
  | .sha512 a => a

/-- The variant tag of a `CryptoAlgo`. -/
inductive AlgoTag where
  | sha1
  | sha256
  | sha512
deriving DecidableEq

def CryptoAlgo.tagOf : CryptoAlgo → AlgoTag
  | .sha1 _ => .sha1
  | .sha256 _ => .sha256
  | .sha512 _ => .sha512

def AlgoTag.freshAlgo : AlgoTag → CryptoAlgo
  | .sha1 => .sha1 []
  | .sha256 => .sha256 []
  | .sha512 => .sha512 []

/-- `struct Crypto { algo: Arc<Mutex<CryptoAlgo>> }`: the contents of the
shared lock-guarded cell, carried explicitly. -/
structure Crypto where
  algo : CryptoAlgo
deriving DecidableEq

/-- Error taxonomy of `Crypto::digest` (`String::from_utf8` failure). -/
inductive DigestErr where
  | nonUtf8Digest
deriving DecidableEq

/-- `Crypto::update` (`crypto.rs:125-132`) under a successfully acquired
lock: the body clones the boxed hasher out of the cell (`box_clone`),
updates the clone, and returns `self` — the clone is dropped and the cell's
stored state is left untouched. -/
def Crypto.update (self : Crypto) (content : List Nat) : Crypto :=
  let binding := self.algo.updateAlgo content
  let _hasher := binding
  self

/-- `Crypto::digest` (`crypto.rs:134-145`) under a successfully acquired
lock: clone the stored hasher, `finalize_reset` the clone to obtain the raw
digest bytes, render them per encoding; the cell is not written. -/
def Crypto.digest (self : Crypto) (encoding : EncodingKind) :
    Except DigestErr String × Crypto :=
  let computed := self.algo.finalizeReset.1
  let result : Except DigestErr String :=
    match encoding with
    | .utf8 =>
        match utf8DecodeChars computed with
        | some cs => .ok ⟨cs⟩
        | none => .error .nonUtf8Digest
    | .base64 => .ok (base64Encode computed)
    | .hex => .ok (hexEncode computed)
  (result, self)

/-- `self.algo.lock().unwrap()` at the head of `Crypto::update`: `lock()`
returns `Err(PoisonError)` when the mutex is poisoned, and `unwrap` turns
that into a panic. -/
def Crypto.updateSync (poisoned : Bool) (self : Crypto) (content : List Nat) :
    Outcome Crypto :=
  if poisoned then .panicked "PoisonError" else .ok (self.update content)

/-- `self.algo.lock().unwrap()` at the head of `Crypto::digest`. -/
def Crypto.digestSync (poisoned : Bool) (self : Crypto) (encoding : EncodingKind) :
    Outcome (Except DigestErr String × Crypto) :=
  if poisoned then .panicked "PoisonError" else .ok (self.digest encoding)

/-- `Crypto::sha1` (`crypto.rs:88-97`): fresh SHA-1 session; an initial chunk
is fed through `update` (the `.clone()` clones the `Arc`, aliasing the same
cell). -/
def Crypto.sha1 (content : Option (List Nat)) : Crypto :=
  let constructed : Crypto := ⟨.sha1 []⟩
  match content with
  | some inner => constructed.update inner
  | none => constructed

/-- `Crypto::sha256` (`crypto.rs:99-110`). -/
def Crypto.sha256 (content : Option (List Nat)) : Crypto :=
  let constructed : Crypto := ⟨.sha256 []⟩
  match content with
  | some inner => constructed.update inner
  | none => constructed

/-- `Crypto::sha512` (`crypto.rs:112-123`). -/
def Crypto.sha512 (content : Option (List Nat)) : Crypto :=
  let constructed : Crypto := ⟨.sha512 []⟩
  match content with
  | some inner => constructed.update inner
  | none => constructed

/-- The sessions constructible through the public API. -/
inductive Crypto.Reachable : Crypto → Prop where
  | sha1 (c : Option (List Nat)) : Reachable (Crypto.sha1 c)
  | sha256 (c : Option (List Nat)) : Reachable (Crypto.sha256 c)
  | sha512 (c : Option (List Nat)) : Reachable (Crypto.sha512 c)
  | update (s : Crypto) (content : List Nat) :
      Reachable s → Reachable (s.update content)
  | digest (s : Crypto) (e : EncodingKind) :
      Reachable s → Reachable (s.digest e).2

/-- The bytes of an ASCII string, as `str::as_bytes` yields them. -/
def asciiBytes (s : String) : List Nat := s.data.map Char.toNat

/-- A fresh session of a given algorithm (what each constructor builds
before feeding the optional initial chunk). -/
def Crypto.ofTag (t : AlgoTag) : Crypto := ⟨t.freshAlgo⟩

/-! ## Helper lemmas -/

theorem Crypto.update_eq (s : Crypto) (c : List Nat) : s.update c = s := rfl

theorem Crypto.digest_snd (s : Crypto) (e : EncodingKind) : (s.digest e).2 = s := rfl

theorem Crypto.ofTag_sha1 : Crypto.ofTag .sha1 = Crypto.sha1 none := rfl

theorem Crypto.ofTag_sha256 : Crypto.ofTag .sha256 = Crypto.sha256 none := rfl

theorem Crypto.ofTag_sha512 : Crypto.ofTag .sha512 = Crypto.sha512 none := rfl

/-- Every API-reachable session still holds a hasher that has absorbed
nothing: `update` only ever mutates a discarded clone, and `digest`
finalizes a clone without writing the cell. -/
theorem Crypto.Reachable.acc_nil {s : Crypto} (h : s.Reachable) : s.algo.acc = [] := by
  induction h with
  | sha1 c => cases c <;> rfl
  | sha256 c => cases c <;> rfl
  | sha512 c => cases c <;> rfl
  | update s content _ ih => exact ih
  | digest s e _ ih => exact ih

theorem CryptoAlgo.eq_fresh_of_acc_nil {a : CryptoAlgo} (h : a.acc = []) :
    a = a.tagOf.freshAlgo := by
  cases a <;> simp_all [CryptoAlgo.acc, CryptoAlgo.tagOf, AlgoTag.freshAlgo]

theorem wordBytesBE_lt (w : Nat) : ∀ b ∈ wordBytesBE w, b < 256 := by
  intro b hb
  simp [wordBytesBE] at hb
  rcases hb with h | h | h | h <;> omega

theorem word64BytesBE_lt (w : Nat) : ∀ b ∈ word64BytesBE w, b < 256 := by
  intro b hb
  simp [word64BytesBE] at hb
  rcases hb with h | h | h | h | h | h | h | h <;> omega

theorem sha1Hash_lt (m : List Nat) : ∀ b ∈ sha1Hash m, b < 256 := by
  intro b hb
  simp only [sha1Hash, List.mem_flatMap] at hb
  obtain ⟨w, _, hw⟩ := hb
  exact wordBytesBE_lt w b hw

theorem sha256Hash_lt (m : List Nat) : ∀ b ∈ sha256Hash m, b < 256 := by
  intro b hb
  simp only [sha256Hash, List.mem_flatMap] at hb
  obtain ⟨w, _, hw⟩ := hb
  exact wordBytesBE_lt w b hw

theorem sha512Hash_lt (m : List Nat) : ∀ b ∈ sha512Hash m, b < 256 := by
  intro b hb
  simp only [sha512Hash, List.mem_flatMap] at hb
  obtain ⟨w, _, hw⟩ := hb
  exact word64BytesBE_lt w b hw

theorem finalizeReset_lt (a : CryptoAlgo) : ∀ b ∈ a.finalizeReset.1, b < 256 := by
  cases a with
  | sha1 acc => exact sha1Hash_lt acc
  | sha256 acc => exact sha256Hash_lt acc
  | sha512 acc => exact sha512Hash_lt acc

theorem sha1Hash_length (m : List Nat) : (sha1Hash m).length = 20 := by
  simp [sha1Hash, wordBytesBE]

theorem sha256Hash_length (m : List Nat) : (sha256Hash m).length = 32 := by
  simp [sha256Hash, wordBytesBE]

theorem sha512Hash_length (m : List Nat) : (sha512Hash m).length = 64 := by
  simp [sha512Hash, word64BytesBE]

theorem hexDigit_roundtrip : ∀ n : Nat, n < 16 →
    hexDigitVal (hexDigitChar n) = some n := by decide

theorem hexDecodeChars_encode : ∀ bs : List Nat, (∀ b ∈ bs, b < 256) →
    hexDecodeChars (hexEncodeChars bs) = some bs
  | [], _ => rfl
  | b :: rest, h => by
      have hb : b < 256 := h b (by simp)
      have e1 := hexDigit_roundtrip (b / 16) (by omega)
      have e2 := hexDigit_roundtrip (b % 16) (by omega)
      have ihh := hexDecodeChars_encode rest (fun x hx => h x (by simp [hx]))
      have harith : b / 16 * 16 + b % 16 = b := by omega
      simp [hexEncodeChars] at ihh ⊢
      simp [hexDecodeChars, e1, e2, ihh, harith]

theorem hexDecode_encode (bs : List Nat) (h : ∀ b ∈ bs, b < 256) :
    hexDecode (hexEncode bs) = some bs :=
  hexDecodeChars_encode bs h

theorem b64Char_roundtrip : ∀ n : Nat, n < 64 →
    b64CharVal (b64Char n) = some n := by decide

theorem b64Char_ne_pad : ∀ n : Nat, n < 64 → b64Char n ≠ '=' := by decide

theorem base64DecodeChars_encode : ∀ bs : List Nat, (∀ b ∈ bs, b < 256) →
    base64DecodeChars (base64EncodeChars bs) = some bs
  | [], _ => rfl
  | [b1], h => by
      have hb1 : b1 < 256 := h b1 (by simp)
      have e1 := b64Char_roundtrip (b1 / 4) (by omega)
      have e2 := b64Char_roundtrip (b1 % 4 * 16) (by omega)
      simp [base64EncodeChars, base64DecodeChars, e1, e2]
      omega
  | [b1, b2], h => by
      have hb1 : b1 < 256 := h b1 (by simp)
      have hb2 : b2 < 256 := h b2 (by simp)
      have e1 := b64Char_roundtrip (b1 / 4) (by omega)
      have e2 := b64Char_roundtrip (b1 % 4 * 16 + b2 / 16) (by omega)
      have e3 := b64Char_roundtrip (b2 % 16 * 4) (by omega)
      have ne3 := b64Char_ne_pad (b2 % 16 * 4) (by omega)
      simp [base64EncodeChars, base64DecodeChars, e1, e2, e3, ne3]
      constructor <;> omega
  | b1 :: b2 :: b3 :: rest, h => by
      have hb1 : b1 < 256 := h b1 (by simp)
      have hb2 : b2 < 256 := h b2 (by simp)
      have hb3 : b3 < 256 := h b3 (by simp)
      have e1 := b64Char_roundtrip (b1 / 4) (by omega)
      have e2 := b64Char_roundtrip (b1 % 4 * 16 + b2 / 16) (by omega)
      have e3 := b64Char_roundtrip (b2 % 16 * 4 + b3 / 64) (by omega)
      have e4 := b64Char_roundtrip (b3 % 64) (by omega)
      have ne3 := b64Char_ne_pad (b2 % 16 * 4 + b3 / 64) (by omega)
      have ne4 := b64Char_ne_pad (b3 % 64) (by omega)
      have ihh := base64DecodeChars_encode rest (fun x hx => h x (by simp [hx]))
      have ha1 : b1 / 4 * 4 + (b1 % 4 * 16 + b2 / 16) / 16 = b1 := by omega
      have ha2 : (b1 % 4 * 16 + b2 / 16) % 16 * 16 + (b2 % 16 * 4 + b3 / 64) / 4 = b2 := by
        omega
      have ha3 : (b2 % 16 * 4 + b3 / 64) % 4 * 64 + b3 % 64 = b3 := by omega
      simp [base64EncodeChars, base64DecodeChars, e1, e2, e3, e4, ne3, ne4, ihh,
        ha1, ha2, ha3]

theorem base64Decode_encode (bs : List Nat) (h : ∀ b ∈ bs, b < 256) :
    base64Decode (base64Encode bs) = some bs :=
  base64DecodeChars_encode bs h

/-! ## Claims -/

/-- Claim C1: the claim requires `update` to append its bytes to the stored
internal state, so that `update("abc")` then `digest(Hex)` on a fresh
SHA-256 session returns the standard test vector for `"abc"`.  The code
instead `box_clone`s the hasher, updates the clone and drops it, so the call
returns the hex digest of the EMPTY message, not of `"abc"`. -/
theorem update_discards_input_sha256_abc :
    (((Crypto.sha256 none).update (asciiBytes "abc")).digest .hex).1 =
      .ok "e3b0c44298fc1c149afbf4c8996fb92427ae41e4649b934ca495991b7852b855" ∧
    (((Crypto.sha256 none).update (asciiBytes "abc")).digest .hex).1 ≠
      .ok "ba7816bf8f01cfea414140de5dae2223b00361a396177a9cb410ff61f20015ad" := by
  constructor
  · decide
  · decide

/-- Claim C2: on every API-reachable session and for all encodings, a second
`digest` with no intervening `update` behaves exactly like the digest of a
freshly constructed session of the same algorithm — the digest of the empty
message, with no carry-over. -/
theorem digest_twice_empty_message {s : Crypto} (h : s.Reachable)
    (e e' : EncodingKind) :
    (((s.digest e).2).digest e').1 = ((Crypto.ofTag s.algo.tagOf).digest e').1 := by
  have hs : s.algo = s.algo.tagOf.freshAlgo := CryptoAlgo.eq_fresh_of_acc_nil h.acc_nil
  show (s.digest e').1 = ((Crypto.ofTag s.algo.tagOf).digest e').1
  unfold Crypto.digest Crypto.ofTag
  rw [← hs]

/-- Witness for C2 at a concrete reachable session: a fresh SHA-256 session,
two `digest(Hex)` calls. -/
theorem digest_twice_empty_message_witness :
    ((((Crypto.sha256 none).digest .hex).2).digest .hex).1 =
      ((Crypto.ofTag (Crypto.sha256 none).algo.tagOf).digest .hex).1 :=
  digest_twice_empty_message (Crypto.Reachable.sha256 none) .hex .hex

/-- Claim C3 counterexample: no variant of the algorithm type produces
MD5's 16-byte digest — there is no MD5 session; `CryptoAlgo` has only the
`Sha1`, `Sha256` and `Sha512` variants (`Md5` is commented out). -/
theorem no_md5_variant : ¬ ∃ a : CryptoAlgo, a.finalizeReset.1.length = 16 := by
  rintro ⟨a, h⟩
  cases a <;>
    simp [CryptoAlgo.finalizeReset, sha1Hash_length, sha256Hash_length,
      sha512Hash_length] at h

/-- Claim C3 (amended): the algorithm type is a closed sum over exactly the
three digest families Sha1, Sha256 and Sha512; the component exposes one
constructor per algorithm (`sha1`, `sha256`, `sha512`), each accepting an
optional initial chunk fed through `update`; every digest is 20, 32 or 64
bytes (never MD5's 16). -/
theorem three_algorithm_closed_sum :
    (∀ a : CryptoAlgo,
      (∃ x, a = .sha1 x) ∨ (∃ x, a = .sha256 x) ∨ (∃ x, a = .sha512 x)) ∧
    (∀ c : List Nat, Crypto.sha1 (some c) = (Crypto.sha1 none).update c) ∧
    (∀ c : List Nat, Crypto.sha256 (some c) = (Crypto.sha256 none).update c) ∧
    (∀ c : List Nat, Crypto.sha512 (some c) = (Crypto.sha512 none).update c) ∧
    (∀ s : Crypto, s.algo.finalizeReset.1.length = 20 ∨
      s.algo.finalizeReset.1.length = 32 ∨ s.algo.finalizeReset.1.length = 64) := by
  refine ⟨fun a => ?_, fun _ => rfl, fun _ => rfl, fun _ => rfl, fun s => ?_⟩
  · cases a with
    | sha1 x => exact Or.inl ⟨x, rfl⟩
    | sha256 x => exact Or.inr (Or.inl ⟨x, rfl⟩)
    | sha512 x => exact Or.inr (Or.inr ⟨x, rfl⟩)
  · cases hs : s.algo with
    | sha1 x => exact Or.inl (by simp [CryptoAlgo.finalizeReset, sha1Hash_length])
    | sha256 x => exact Or.inr (Or.inl (by simp [CryptoAlgo.finalizeReset, sha256Hash_length]))
    | sha512 x => exact Or.inr (Or.inr (by simp [CryptoAlgo.finalizeReset, sha512Hash_length]))

/-- Claim C4: the claim requires a structured, recoverable `InvalidEncoding`
error for selectors outside {0,1,2} / {"utf8","base64","hex"}.  The code
instead executes `panic!("invalid value")` in both `From` impls: ordinal 7
and the name "rot13" panic rather than returning an error. -/
theorem invalid_encoding_selector_panics :
    EncodingKind.fromUsize 7 = .panicked "invalid value" ∧
    EncodingKind.fromString "rot13" = .panicked "invalid value" := by
  constructor
  · rfl
  · decide

/-- Claim C5: the claim requires lock poisoning to surface as a recoverable
`LockFailure` error.  The code instead calls `self.algo.lock().unwrap()`, so
on a poisoned mutex both `update` and `digest` panic (an unrecoverable
process fault), not a recoverable error value. -/
theorem poisoned_lock_panics :
    Crypto.updateSync true (Crypto.sha256 none) (asciiBytes "x") =
      .panicked "PoisonError" ∧
    Crypto.digestSync true (Crypto.sha256 none) .hex = .panicked "PoisonError" := by
  constructor
  · rfl
  · rfl

/-- Claim C6: for every algorithm, all byte sequences x and y and every
encoding E, `update(x); update(y); digest(E)` on one fresh session equals
`update(x ++ y); digest(E)` on another fresh session of the same algorithm. -/
theorem chaining_update_concat (t : AlgoTag) (x y : List Nat) (e : EncodingKind) :
    ((((Crypto.ofTag t).update x).update y).digest e).1 =
      (((Crypto.ofTag t).update (x ++ y)).digest e).1 := rfl

/-- Claim C7: `digest(Utf8)` returns the recoverable `NonUtf8Digest` error
exactly when the raw digest bytes fail UTF-8 validation, and in particular
fails on a freshly constructed SHA-256 session with no input. -/
theorem utf8_digest_errs_iff_invalid (s : Crypto) :
    ((s.digest .utf8).1 = .error .nonUtf8Digest ↔
      utf8DecodeChars s.algo.finalizeReset.1 = none) ∧
    ((Crypto.sha256 none).digest .utf8).1 = .error .nonUtf8Digest := by
  constructor
  · unfold Crypto.digest
    cases hd : utf8DecodeChars s.algo.finalizeReset.1 <;> simp [hd]
  · decide

/-- Claim C8: for every supported algorithm (the closed set SHA-1, SHA-256,
SHA-512), `digest(Hex)` on a freshly constructed session with no updates
returns the well-known lowercase hex digest of the empty string. -/
theorem empty_message_hex_vectors :
    ((Crypto.sha1 none).digest .hex).1 =
      .ok "da39a3ee5e6b4b0d3255bfef95601890afd80709" ∧
    ((Crypto.sha256 none).digest .hex).1 =
      .ok "e3b0c44298fc1c149afbf4c8996fb92427ae41e4649b934ca495991b7852b855" ∧
    ((Crypto.sha512 none).digest .hex).1 =
      .ok ("cf83e1357eefb8bdf1542850d66d8007d620e4050b5715dc83f4a921d36ce9ce" ++
        "47d0d13c5d85f2b0ff8318d2877eec2f63b931bd47417a81a538327af927da3e") := by
  refine ⟨by decide, by decide, by decide⟩

/-- Claim C9: for every session (any algorithm, any accumulated hasher
state), `digest(Hex)` and `digest(Base64)` both succeed, and decoding the
hex string and decoding the base64 string both recover exactly the raw
digest bytes. -/
theorem cross_encoding_consistency (s : Crypto) :
    (s.digest .hex).1 = .ok (hexEncode s.algo.finalizeReset.1) ∧
    (s.digest .base64).1 = .ok (base64Encode s.algo.finalizeReset.1) ∧
    hexDecode (hexEncode s.algo.finalizeReset.1) = some s.algo.finalizeReset.1 ∧
    base64Decode (base64Encode s.algo.finalizeReset.1) =
      some s.algo.finalizeReset.1 := by
  refine ⟨rfl, rfl, hexDecode_encode _ (finalizeReset_lt s.algo),
    base64Decode_encode _ (finalizeReset_lt s.algo)⟩

/-- Claim C10: a negative or NaN Lua number selector is not rejected: the
`f64 as usize` cast saturates to 0, so `FromLua` silently accepts the
selector as `Utf8` instead of failing. -/
theorem negative_nan_number_is_utf8 (f : F64)
    (h : f = F64.nan ∨ f.isNegative = true) :
    f.asUsize = 0 ∧ EncodingKind.fromLua (.number f) = .ok (.ok .utf8) := by
  have h0 : f.asUsize = 0 := by
    rcases h with h | h
    · subst h; rfl
    · cases f with
      | nan => rfl
      | posInf => simp [F64.isNegative] at h
      | negInf => rfl
      | val q =>
          have hq : q < 0 := by simpa [F64.isNegative] using h
          simp [F64.asUsize, hq]
  refine ⟨h0, ?_⟩
  show (EncodingKind.fromUsize f.asUsize).map Except.ok = .ok (.ok .utf8)
  rw [h0]
  rfl

/-- Witness for C10 at the concrete input NaN. -/
theorem negative_nan_number_is_utf8_witness :
    F64.asUsize F64.nan = 0 ∧
    EncodingKind.fromLua (.number F64.nan) = .ok (.ok .utf8) :=
  negative_nan_number_is_utf8 F64.nan (Or.inl rfl)

end LuneCrypto
